import Mathlib

/-!
Shallow embedding of the sahrass news-aggregator core (src/utils.rs,
src/network.rs, src/logic.rs, src/translate.rs, src/consts.rs) and proofs
about it.  Pure functions are translated directly; network I/O, the HTML/XML
parsing libraries, the RNG draw and the system clock are made explicit
parameters of the embedded functions.  Rust machine integers are modelled as
Nat with explicit saturation where the source saturates, and the one f64
computation (the golden-ratio delay) is modelled over the exact rationals.
-/

namespace Sahrass

/-! ## src/utils.rs: stealth timing -/

/-- Constant PHI_INVERSE from src/utils.rs line 12 (the f64 literal
0.6180339887498949, taken as an exact rational). -/
def PHI_INVERSE : ℚ := 6180339887498949 / 10000000000000000

/-- Constant MIN_DELAY_MS from src/utils.rs line 15. -/
def MIN_DELAY_MS : ℕ := 100

/-- Constant MAX_DELAY_MS from src/utils.rs line 18. -/
def MAX_DELAY_MS : ℕ := 5000

/-- Rust `expr as u64` applied to an f64 value, modelled on the exact value:
negative values saturate to 0, the fractional part is truncated, and values
above u64::MAX saturate to u64::MAX. -/
def castF64ToU64 (q : ℚ) : ℕ :=
  if q ≤ 0 then 0 else min (2 ^ 64 - 1) (Int.toNat ⌊q⌋)

/-- Rust `u64::clamp(self, lo, hi)`: lo if below, hi if above, else self. -/
def clampU64 (n lo hi : ℕ) : ℕ :=
  if n < lo then lo else if hi < n then hi else n

/-- `compute_golden_delay` from src/utils.rs lines 42-54, with the RNG draw
`noise` (drawn there from [-1.0, 1.0]) made an explicit parameter:
multiplier = 1 + noise * PHI_INVERSE, delay = base_ms * multiplier, then the
u64 cast and clamp to [MIN_DELAY_MS, MAX_DELAY_MS]. -/
def compute_golden_delay (base_ms : ℕ) (noise : ℚ) : ℕ :=
  let multiplier : ℚ := 1 + noise * PHI_INVERSE
  let delay : ℚ := (base_ms : ℚ) * multiplier
  clampU64 (castF64ToU64 delay) MIN_DELAY_MS MAX_DELAY_MS

/-! ## src/utils.rs: text truncation -/

/-- Total UTF-8 byte size of a character list, as Rust `str::len` counts a
string slice. -/
def utf8Len (cs : List Char) : ℕ := (cs.map Char.utf8Size).sum

/-- The prefix kept by the backoff loop of `truncate_text`
(src/utils.rs lines 79-82): starting from byte index `budget` the loop steps
down to the nearest character boundary, and the slice `&trimmed[..end]` is
therefore the longest character prefix whose UTF-8 size is at most `budget`.
This greedy take computes exactly that prefix. -/
def takeBytes : ℕ → List Char → List Char
  | _, [] => []
  | budget, c :: cs =>
    if c.utf8Size ≤ budget then c :: takeBytes (budget - c.utf8Size) cs else []

/-- Rust `str::trim` (src/utils.rs line 72): drop whitespace from both ends
(whitespace modelled by `Char.isWhitespace`). -/
def rustTrim (cs : List Char) : List Char :=
  ((cs.dropWhile Char.isWhitespace).reverse.dropWhile Char.isWhitespace).reverse

/-- `truncate_text` from src/utils.rs lines 71-85: trim; if the trimmed BYTE
length fits in `max_len` return the trimmed text; otherwise cut at the
largest char boundary at or below `max_len - 3` bytes (saturating) and append
`"..."`. -/
def truncate_text (text : String) (max_len : ℕ) : String :=
  let trimmed := rustTrim text.data
  if utf8Len trimmed ≤ max_len then ⟨trimmed⟩
  else ⟨takeBytes (max_len - 3) trimmed ++ "...".data⟩

/-! ## src/utils.rs: clean_text -/

/-- Whether the first list starts with the second (pattern match at the
current position, used by `strReplace`). -/
def startsWithChars : List Char → List Char → Bool
  | _, [] => true
  | [], _ :: _ => false
  | c :: cs, p :: ps => c == p && startsWithChars cs ps

/-- Recursion core of `strReplace`, structural on a fuel that starts at the
string's length (each step consumes at least one character, so the fuel
never runs out on the initial call). -/
def replaceFuel (pat rep : List Char) : ℕ → List Char → List Char
  | 0, s => s
  | _ + 1, [] => []
  | fuel + 1, c :: cs =>
    if startsWithChars (c :: cs) pat then
      rep ++ replaceFuel pat rep fuel (List.drop (pat.length - 1) cs)
    else c :: replaceFuel pat rep fuel cs

/-- Rust `str::replace(pattern, replacement)`: replace every non-overlapping
occurrence of the pattern, scanning left to right.  The patterns used by the
source are all non-empty; an empty pattern leaves the string unchanged. -/
def strReplace (s pat rep : String) : String :=
  if pat.data.isEmpty then s else ⟨replaceFuel pat.data rep.data s.data.length s.data⟩

/-- Rust `str::split_whitespace` over the character list: the maximal
non-empty runs separated by whitespace (`cur` is the current run,
accumulated in reverse). -/
def splitWsAux : List Char → List Char → List (List Char)
  | [], cur => if cur.isEmpty then [] else [cur.reverse]
  | c :: cs, cur =>
    if c.isWhitespace then
      if cur.isEmpty then splitWsAux cs [] else cur.reverse :: splitWsAux cs []
    else splitWsAux cs (c :: cur)

/-- `clean_text` from src/utils.rs lines 91-100: split on whitespace
(Rust `split_whitespace`: whitespace-separated non-empty runs), join with
single spaces, then decode the five HTML entities in source order. -/
def clean_text (text : String) : String :=
  let joined : String := ⟨List.intercalate [' '] (splitWsAux text.data [])⟩
  strReplace (strReplace (strReplace (strReplace (strReplace joined
    "&nbsp;" " ") "&amp;" "&") "&lt;" "<") "&gt;" ">") "&quot;" "\""

/-! ## src/network.rs: data model -/

/-- `NewsItem` from src/network.rs lines 22-28; `NewsItem::new` leaves
description and link at None (lines 30-36). -/
structure NewsItem where
  title : String
  description : Option String := none
  link : Option String := none
  time_str : String
deriving DecidableEq, Repr

/-- `FetchError` from src/network.rs lines 14-20.  The `Http` variant wraps a
`reqwest::Error`; its payload is modelled by its display string. -/
inductive FetchError where
  | Http (msg : String)
  | NoKey
  | Empty
  | Parse
deriving DecidableEq, Repr

/-- Display strings of `FetchError` as derived by thiserror
(src/network.rs lines 14-19). -/
def FetchError.display : FetchError → String
  | .Http msg => "HTTP: " ++ msg
  | .NoKey => "No Key"
  | .Empty => "Empty"
  | .Parse => "Parse Error"

/-- Constant MAX_ITEMS_PER_SOURCE from src/consts.rs line 115. -/
def MAX_ITEMS_PER_SOURCE : ℕ := 5

/-! ## src/network.rs: RSS parser

`fetch_rss` (src/network.rs lines 97-109).  The HTTP transfer and the
feed_rs XML parse are external: the parsed feed's entry list is the explicit
input.  A feed_rs entry carries an optional title, an optional summary, an
optional content (whose body is itself optional) and a list of link hrefs.
The junk predicate `is_junk` is imported by src/network.rs from
src/utils.rs but is absent from that file, so the parsers take it as an
explicit parameter (spec §4.3 describes it only as a deterministic
predicate over the text with a configured keyword list). -/

structure RssEntry where
  title : Option String
  summary : Option String
  content : Option (Option String)
  links : List String
deriving DecidableEq, Repr

/-- Body of the filter_map closure in src/network.rs lines 101-107. -/
def rssEntryToItem (is_junk : String → Bool) (e : RssEntry) : Option NewsItem :=
  let title := e.title.getD ""
  if is_junk title then none
  else
    let desc := (e.summary.map clean_text).orElse
      (fun _ => e.content.map (fun b => clean_text (b.getD "")))
    let link := e.links.head?
    some { title := clean_text title, description := desc, link := link,
           time_str := "RSS" }

/-- The entry pipeline of `fetch_rss`: take up to `maxItems` entries in feed
order, then filter_map each to an item.  No reversal is applied and no
emptiness check is made. -/
def rssParse (is_junk : String → Bool) (maxItems : ℕ) (entries : List RssEntry) :
    List NewsItem :=
  (entries.take maxItems).filterMap (rssEntryToItem is_junk)

/-- `fetch_rss` (src/network.rs lines 97-109) after a successful transfer and
feed parse: always returns Ok of the (possibly empty) processed entry list. -/
def fetch_rss (is_junk : String → Bool) (entries : List RssEntry) :
    Except FetchError (List NewsItem) :=
  .ok (rssParse is_junk MAX_ITEMS_PER_SOURCE entries)

/-! ## src/network.rs: Telegram-mirror parser -/

/-- One message-wrapper node as consumed by `fetch_telegram`
(src/network.rs lines 115-127): the collected text of the text selector, if
any, and the date element's collected text and optional href, if any. -/
structure TgWrapper where
  text : Option String
  date : Option (String × Option String)
deriving DecidableEq, Repr

/-- Per-wrapper extraction of src/network.rs lines 117-126: skip the node if
the text selector matches nothing; clean the text; skip if junk; take time
and link from the date element, defaulting time to "--:--". -/
def tgWrapperToItem (is_junk : String → Bool) (w : TgWrapper) : Option NewsItem :=
  match w.text with
  | none => none
  | some t =>
    let cleaned := clean_text t
    if is_junk cleaned then none
    else
      let time := match w.date with
        | some d => d.1
        | none => "--:--"
      let link := match w.date with
        | some d => d.2
        | none => none
      some { title := cleaned, description := none, link := link, time_str := time }

/-- The accumulation loop of `fetch_telegram` (src/network.rs lines 115-128):
the wrapper list is already reversed by the caller; the loop breaks as soon
as the accumulator holds `maxItems` items, otherwise pushes each qualifying
item. -/
def tgLoop (is_junk : String → Bool) (maxItems : ℕ) :
    List TgWrapper → List NewsItem → List NewsItem
  | [], acc => acc
  | w :: ws, acc =>
    if maxItems ≤ acc.length then acc
    else
      match tgWrapperToItem is_junk w with
      | none => tgLoop is_junk maxItems ws acc
      | some item => tgLoop is_junk maxItems ws (acc ++ [item])

/-- The body of `fetch_telegram` after the HTTP transfer and DOM parse, with
the item cap as a parameter: iterate the wrapper nodes from the end of the
document backward, accumulate, fail with Empty if nothing qualified, else
reverse (src/network.rs lines 113-131). -/
def tgParse (is_junk : String → Bool) (maxItems : ℕ) (wrappers : List TgWrapper) :
    Except FetchError (List NewsItem) :=
  let items := tgLoop is_junk maxItems wrappers.reverse []
  if items.isEmpty then .error .Empty else .ok items.reverse

/-- `fetch_telegram` (src/network.rs lines 111-132) with the source's cap
MAX_ITEMS_PER_SOURCE. -/
def fetch_telegram (is_junk : String → Bool) (wrappers : List TgWrapper) :
    Except FetchError (List NewsItem) :=
  tgParse is_junk MAX_ITEMS_PER_SOURCE wrappers

/-! ## src/network.rs: NewsData JSON API client -/

/-- One object of the response's "results" array as read by `fetch_newsdata`
(src/network.rs lines 85-90): optional title, description, link and pubDate
string fields. -/
structure NdEntry where
  title : Option String
  description : Option String
  link : Option String
  pubDate : Option String
deriving DecidableEq, Repr

/-- Loop body of src/network.rs lines 86-90: title defaults to "No Title"
(and is carried raw, not cleaned), description is cleaned, link and pubDate
carried through, the item dropped when the title is junk. -/
def ndEntryToItem (is_junk : String → Bool) (e : NdEntry) : Option NewsItem :=
  let title := e.title.getD "No Title"
  let desc := e.description.map clean_text
  let date := e.pubDate.getD "--:--"
  if is_junk title then none
  else some { title := title, description := desc, link := e.link, time_str := date }

/-- `fetch_newsdata` (src/network.rs lines 78-95) after the HTTP transfer and
JSON parse: the environment API key and the decoded "results" array (absent
when the field is missing or not an array) are explicit inputs.  No key gives
NoKey; an empty filtered item list gives Empty. -/
def fetch_newsdata (is_junk : String → Bool) (apiKey : Option String)
    (results : Option (List NdEntry)) : Except FetchError (List NewsItem) :=
  match apiKey with
  | none => .error .NoKey
  | some _ =>
    let items := match results with
      | some rs => (rs.take MAX_ITEMS_PER_SOURCE).filterMap (ndEntryToItem is_junk)
      | none => []
    if items.isEmpty then .error .Empty else .ok items

/-! ## src/network.rs: HTML price scraper -/

/-- `fetch_html` (src/network.rs lines 135-185).  The HTTP transfer and the
regex engine are external: the capture of the source-specific price regex and
of the percent-change regex over the page, and the current clock reading
`now` (chrono Local "%H:%M"), are explicit inputs.  Price starts at "N/A"
and percent at ""; only the "Gold" and "Oil" branches overwrite them; a
still-"N/A" price is a Parse failure; otherwise exactly one item is built
whose title is "<name> Price: <price>" with "  (<percent>)" appended when a
percent was captured, and whose link is the source URL. -/
def fetch_html (name url : String) (priceCap percentCap : Option String)
    (now : String) : Except FetchError (List NewsItem) :=
  let price := if name = "Gold" ∨ name = "Oil" then
      match priceCap with
      | some p => "$" ++ p
      | none => "N/A"
    else "N/A"
  let percent := if name = "Gold" ∨ name = "Oil" then percentCap.getD "" else ""
  if price = "N/A" then .error .Parse
  else
    let title := if percent = "" then name ++ " Price: " ++ price
      else name ++ " Price: " ++ price ++ "  (" ++ percent ++ ")"
    .ok [{ title := title, description := none, link := some url, time_str := now }]

/-! ## src/consts.rs: source registry -/

/-- `SourceType`.  src/consts.rs lines 7-12 declares Rss and TelegramHtml;
the engine dispatch in src/network.rs lines 63-68 additionally matches
NewsData and Html, so the embedding carries the four variants the engine
dispatches on. -/
inductive SourceType where
  | Rss
  | TelegramHtml
  | NewsData
  | Html
deriving DecidableEq, Repr

/-- `Category` from src/consts.rs lines 15-21. -/
inductive Category where
  | Global
  | War
  | Market
  | Commodities
deriving DecidableEq, Repr

/-- Display instance of `Category` from src/consts.rs lines 23-32. -/
def Category.display : Category → String
  | .Global => "🖤 Global"
  | .War => "🤍 War"
  | .Market => "🏴 Market"
  | .Commodities => "💀 Commodities"

/-- `Source` from src/consts.rs lines 35-41. -/
structure Source where
  name : String
  url : String
  source_type : SourceType
  category : Category
deriving DecidableEq, Repr

/-- The static `SOURCES` registry from src/consts.rs lines 55-85. -/
def SOURCES : List Source :=
  [ { name := "Reuters",
      url := "https://www.reutersagency.com/feed/?best-topics=political-general&post_type=best",
      source_type := .Rss, category := .Global },
    { name := "Kommersant", url := "https://t.me/s/kommersant",
      source_type := .TelegramHtml, category := .Global },
    { name := "AlJazeera", url := "https://www.aljazeera.com/xml/rss/all.xml",
      source_type := .Rss, category := .Global },
    { name := "DeepState", url := "https://t.me/s/DeepStateUA",
      source_type := .TelegramHtml, category := .War },
    { name := "TASS", url := "https://t.me/s/tass_agency",
      source_type := .TelegramHtml, category := .War },
    { name := "Liveuamap", url := "https://t.me/s/liveuamap",
      source_type := .TelegramHtml, category := .War },
    { name := "Bloomberg", url := "https://t.me/s/bbbreaking",
      source_type := .TelegramHtml, category := .Market },
    { name := "MarketTwits", url := "https://t.me/s/markettwits",
      source_type := .TelegramHtml, category := .Market },
    { name := "TreeOfAlpha", url := "https://t.me/s/TreeNewsFeed",
      source_type := .TelegramHtml, category := .Market },
    { name := "Gold",
      url := "https://news.google.com/rss/search?q=Gold+Price+USD&hl=en-US&gl=US&ceid=US:en",
      source_type := .Rss, category := .Commodities },
    { name := "Oil",
      url := "https://news.google.com/rss/search?q=Brent+Crude+Oil+Price&hl=en-US&gl=US&ceid=US:en",
      source_type := .Rss, category := .Commodities } ]

/-- Rust `str::eq_ignore_ascii_case`: equality after ASCII lowercasing
(Lean's `Char.toLower` lowercases exactly the ASCII uppercase range). -/
def eqIgnoreAsciiCase (a b : String) : Bool :=
  a.data.map Char.toLower = b.data.map Char.toLower

/-- `find_source` from src/consts.rs lines 88-90. -/
def find_source (name : String) : Option Source :=
  SOURCES.find? (fun s => eqIgnoreAsciiCase s.name name)

/-- `sources_by_category` from src/consts.rs lines 93-95. -/
def sources_by_category (category : Category) : List Source :=
  SOURCES.filter (fun s => s.category = category)

/-! ## src/network.rs: the fetch orchestrator -/

/-- The closure applied to the dispatched parser's output in `fetch`
(src/network.rs lines 69-74): its body returns `items` unchanged — the
translation logic the comment refers to is absent from the code, so this
step is the identity. -/
def translationStep (items : List NewsItem) : List NewsItem := items

/-- The external inputs of one `fetch` call: the parsed RSS entries, the
Telegram wrapper nodes, the NEWSDATA_KEY environment variable, the decoded
NewsData results array, the price-page regex captures and the clock reading,
each consumed by the parser the engine dispatches to. -/
structure FetchInput where
  rssEntries : List RssEntry
  tgWrappers : List TgWrapper
  apiKey : Option String
  ndResults : Option (List NdEntry)
  priceCap : Option String
  percentCap : Option String
  now : String

/-- `NewsEngine::fetch` (src/network.rs lines 60-75): after the stealth
delay (a pure sleep, not modelled), dispatch on the source type to the
matching parser and map the (identity) translation step over the result. -/
def fetch (is_junk : String → Bool) (source : Source) (inp : FetchInput) :
    Except FetchError (List NewsItem) :=
  (match source.source_type with
    | .TelegramHtml => fetch_telegram is_junk inp.tgWrappers
    | .Rss => fetch_rss is_junk inp.rssEntries
    | .NewsData => fetch_newsdata is_junk inp.apiKey inp.ndResults
    | .Html => fetch_html source.name source.url inp.priceCap inp.percentCap inp.now
  ).map translationStep

/-! ## src/translate.rs: translation sub-fetcher -/

/-- The shape of serde_json values `translate_text` inspects: strings,
arrays, and everything else. -/
inductive TJson where
  | str (s : String)
  | arr (xs : List TJson)
  | other

/-- serde_json `Value::get(0)`: the first element of an array, else None. -/
def TJson.get0 : TJson → Option TJson
  | .arr (x :: _) => some x
  | _ => none

/-- serde_json `Value::as_array`. -/
def TJson.asArray : TJson → Option (List TJson)
  | .arr xs => some xs
  | _ => none

/-- serde_json `Value::as_str`. -/
def TJson.asStr : TJson → Option String
  | .str s => some s
  | _ => none

/-- The sentence-extraction loop of src/translate.rs lines 36-46: take the
response's element 0 as an array of sentences; for each sentence that is an
array, append its element 0 when that is a string. -/
def extractTranslation (j : TJson) : String :=
  match j.get0.bind TJson.asArray with
  | some sentences =>
    String.join (sentences.map (fun s =>
      match s.asArray with
      | some sArr => ((sArr.head?.bind TJson.asStr).getD "")
      | none => ""))
  | none => ""

/-- The outcome of the outbound translation HTTP call in
src/translate.rs lines 24-33: the send itself can fail; otherwise the
response has a success/non-success status and a body whose JSON decode can
fail. -/
inductive TransportResult where
  | sendFail
  | ok (statusSuccess : Bool) (body : Except Unit TJson)

/-- `translate_text` from src/translate.rs lines 12-53, with the transport
outcome explicit.  A send failure or a JSON decode failure propagates as an
error (the `?` operators on lines 27 and 33); a non-success status returns
an error (lines 29-31); only when everything succeeded is the extracted
translation returned, falling back to the original text when the extraction
is empty (lines 48-52). -/
def translate_text (text targetLang : String) (resp : TransportResult) :
    Except String String :=
  match resp with
  | .sendFail => .error "HTTP send failed"
  | .ok statusSuccess body =>
    if statusSuccess = false then .error ("Translation failed: " ++ targetLang)
    else
      match body with
      | .error _ => .error "JSON decode failed"
      | .ok j =>
        let translated := extractTranslation j
        if translated = "" then .ok text else .ok translated

/-! ## src/network.rs: formatting -/

/-- `escape_html` from src/network.rs lines 218-223. -/
def escape_html (text : String) : String :=
  strReplace (strReplace (strReplace (strReplace text
    "&" "&amp;") "<" "&lt;") ">" "&gt;") "\"" "&quot;"

/-- One iteration of the item loop in `format_results`
(src/network.rs lines 190-210), producing the text appended for one item. -/
def formatItemBlock (source_name : String) (item : NewsItem) : String :=
  let body :=
    if source_name = "Gold" ∨ source_name = "Oil" then
      "\n💰 <b>" ++ item.title ++ "</b>"
        ++ "\n   └ <a href=\"" ++ (item.link.getD "") ++ "\">Chart</a>"
    else
      let title_clean := truncate_text item.title 150
      let base := "\n▪️ <b>" ++ escape_html title_clean ++ "</b>"
      let withDesc :=
        match item.description with
        | some d =>
          let desc_clean := truncate_text d 200
          if desc_clean ≠ "" ∧ desc_clean ≠ title_clean then
            base ++ "\n   <i>" ++ escape_html desc_clean ++ "</i>"
          else base
        | none => base
      let withTime := withDesc ++ "\n   └ <code>" ++ escape_html item.time_str ++ "</code>"
      match item.link with
      | some l => withTime ++ " <a href=\"" ++ l ++ "\">[Link]</a>"
      | none => withTime
  body ++ "\n"

/-- `format_results` from src/network.rs lines 188-212. -/
def format_results (source_name : String) (items : List NewsItem) : String :=
  "<b>🏴 " ++ escape_html source_name ++ "</b>\n"
    ++ String.join (items.map (formatItemBlock source_name))

/-- `format_error` from src/network.rs lines 214-216. -/
def format_error (source_name : String) (error : FetchError) : String :=
  "<b>🕸 " ++ escape_html source_name ++ ":</b> " ++ error.display ++ "\n"

/-! ## src/logic.rs: target resolution and aggregation -/

/-- `Target` from src/logic.rs lines 9-14. -/
inductive Target where
  | Category (c : Category)
  | Source (name : String)
deriving DecidableEq, Repr

/-- `Target::resolve` from src/logic.rs lines 18-25. -/
def Target.resolve : Target → List Sahrass.Source
  | .Category c => sources_by_category c
  | .Source n => (find_source n).toList

/-- `Target::display_name` from src/logic.rs lines 28-33. -/
def Target.display_name : Target → String
  | .Category c => c.display
  | .Source n => "🕷 " ++ n

/-- `AggregatedNews` from src/logic.rs lines 37-42. -/
structure AggregatedNews where
  header : String
  content : String
  success_count : ℕ
  error_count : ℕ
deriving DecidableEq, Repr

/-- Loop body of `fetch_target` (src/logic.rs lines 62-75): a success
appends its formatted block plus a newline and bumps success_count; a
failure appends its error block and bumps error_count. -/
def aggStep (engine : Source → Except FetchError (List NewsItem))
    (acc : String × ℕ × ℕ) (source : Source) : String × ℕ × ℕ :=
  match engine source with
  | .ok items =>
    (acc.1 ++ format_results source.name items ++ "\n", acc.2.1 + 1, acc.2.2)
  | .error e =>
    (acc.1 ++ format_error source.name e, acc.2.1, acc.2.2 + 1)

/-- `fetch_target` from src/logic.rs lines 45-83, with the engine call
`engine.fetch_with_retry(source, 2)` abstracted as a function from the
source to its final per-source outcome: empty resolution short-circuits with
the "no sources" literal and error_count 1; otherwise the sources are folded
through `aggStep`. -/
def fetch_target (engine : Source → Except FetchError (List NewsItem))
    (target : Target) : AggregatedNews :=
  let sources := target.resolve
  let header := target.display_name ++ " Feed"
  if sources.isEmpty then
    { header := header, content := "🕸 No sources found",
      success_count := 0, error_count := 1 }
  else
    let r := sources.foldl (aggStep engine) ("", 0, 0)
    { header := header, content := r.1, success_count := r.2.1, error_count := r.2.2 }

/-! ## The retry wrapper -/

/-- The error taxonomy of spec §3, used by the retry model below. -/
inductive SpecFetchError where
  | TransientHttp
  | RateLimited
  | Forbidden
  | NotFound
  | MissingCredential
  | ParseFailure
  | Empty
deriving DecidableEq, Repr

/-- Modelled from the spec: `fetch_with_retry` is invoked in
src/logic.rs line 63 but is not defined anywhere under src/.  Spec §4.6:
loop attempts 0..maxAttempts, sleeping a retry delay before each retry
(sleeps are pure suspensions, not modelled); return the first success
immediately; record each failure as the last error (a RateLimited failure
differs only in using the extended backoff before continuing); after the
last attempt return the last recorded error.  `attempt i` is the outcome of
the i-th engine fetch; the loop also reports how many attempts were made.
The spec leaves maxAttempts = 0 undefined; the model then returns Empty
without any attempt. -/
def retryGo (attempt : ℕ → Except SpecFetchError (List NewsItem)) (i : ℕ)
    (last : Option SpecFetchError) :
    ℕ → Except SpecFetchError (List NewsItem) × ℕ
  | 0 => (.error (last.getD .Empty), i)
  | n + 1 =>
    match attempt i with
    | .ok v => (.ok v, i + 1)
    | .error e => retryGo attempt (i + 1) (some e) n

/-- Modelled from the spec (see `retryGo`): `fetchWithRetry(source,
maxAttempts)` with the per-attempt outcomes explicit. -/
def fetch_with_retry (attempt : ℕ → Except SpecFetchError (List NewsItem))
    (maxAttempts : ℕ) : Except SpecFetchError (List NewsItem) × ℕ :=
  retryGo attempt 0 none maxAttempts

/-! ## Helper lemmas -/

theorem clampU64_bounds (n lo hi : ℕ) (h : lo ≤ hi) :
    lo ≤ clampU64 n lo hi ∧ clampU64 n lo hi ≤ hi := by
  unfold clampU64
  split
  · omega
  · split <;> omega

theorem utf8Len_nil : utf8Len [] = 0 := rfl

theorem utf8Len_cons (c : Char) (cs : List Char) :
    utf8Len (c :: cs) = c.utf8Size + utf8Len cs := by
  simp [utf8Len]

theorem utf8Len_append (a b : List Char) :
    utf8Len (a ++ b) = utf8Len a + utf8Len b := by
  simp [utf8Len]

theorem utf8Len_takeBytes_le (cs : List Char) : ∀ b : ℕ, utf8Len (takeBytes b cs) ≤ b := by
  induction cs with
  | nil => intro b; simp [takeBytes, utf8Len_nil]
  | cons c cs ih =>
    intro b
    unfold takeBytes
    split
    · rw [utf8Len_cons]
      have := ih (b - c.utf8Size)
      omega
    · simp [utf8Len_nil]

theorem takeBytes_longest (cs : List Char) : ∀ b : ℕ, ∃ k,
    takeBytes b cs = cs.take k ∧ utf8Len (cs.take k) ≤ b ∧
      (k < cs.length → b < utf8Len (cs.take (k + 1))) := by
  induction cs with
  | nil =>
    intro b
    exact ⟨0, rfl, by simp [utf8Len], by simp⟩
  | cons c cs ih =>
    intro b
    by_cases hc : c.utf8Size ≤ b
    · obtain ⟨k, hk, hle, hmax⟩ := ih (b - c.utf8Size)
      refine ⟨k + 1, ?_, ?_, ?_⟩
      · unfold takeBytes
        rw [if_pos hc, hk, List.take_succ_cons]
      · rw [List.take_succ_cons, utf8Len_cons]
        omega
      · intro hlen
        have hlen' : k < cs.length := by
          simp only [List.length_cons] at hlen
          omega
        have hnext := hmax hlen'
        rw [List.take_succ_cons, utf8Len_cons]
        omega
    · refine ⟨0, ?_, by simp [utf8Len], ?_⟩
      · unfold takeBytes
        rw [if_neg hc]
        rfl
      · intro _
        rw [List.take_succ_cons, List.take_zero, utf8Len_cons, utf8Len_nil]
        omega

/-! ## C8 -/

/-- Counterexample to C8: the claim says truncate_text leaves the input
unchanged when its CHARACTER count is within the budget.  "Привет" has 6
characters, yet with a budget of 6 the code (which budgets BYTES, of which
this string has 12) truncates it to "П...". -/
theorem truncate_char_count_refuted :
    ("Привет".data.length ≤ 6 ∧ truncate_text "Привет" 6 = "П...") ∧
      truncate_text "Привет" 6 ≠ "Привет" := by
  constructor
  · exact ⟨by decide, by decide⟩
  · decide

/-- C8 amended: truncate_text trims the input; when the trimmed BYTE length
is within the budget it returns the trimmed text; otherwise it keeps the
LONGEST character prefix of the trimmed text that fits in max_len - 3 bytes
(so it always splits on a character boundary) and appends "...": the kept
prefix is some `take k` within the byte budget such that taking one more
character, when one exists, would exceed the budget. -/
theorem truncate_text_spec :
    (∀ (s : String) (n : ℕ), utf8Len (rustTrim s.data) ≤ n →
        truncate_text s n = ⟨rustTrim s.data⟩) ∧
      (∀ (s : String) (n : ℕ), n < utf8Len (rustTrim s.data) →
        ∃ k, truncate_text s n = ⟨(rustTrim s.data).take k ++ "...".data⟩ ∧
          utf8Len ((rustTrim s.data).take k) ≤ n - 3 ∧
          (k < (rustTrim s.data).length →
            n - 3 < utf8Len ((rustTrim s.data).take (k + 1)))) := by
  constructor
  · intro s n h
    unfold truncate_text
    rw [if_pos h]
  · intro s n h
    obtain ⟨k, hk, hle, hmax⟩ := takeBytes_longest (rustTrim s.data) (n - 3)
    refine ⟨k, ?_, hle, hmax⟩
    unfold truncate_text
    rw [if_neg (by omega), hk]

/-- Witness for `truncate_text_spec` at concrete inputs. -/
theorem truncate_text_spec_witness :
    (utf8Len (rustTrim " hi ".data) ≤ 10 ∧ truncate_text " hi " 10 = ⟨rustTrim " hi ".data⟩) ∧
      (6 < utf8Len (rustTrim "Привет".data) ∧
        ∃ k, truncate_text "Привет" 6 = ⟨("Привет".data).take k ++ "...".data⟩ ∧
          utf8Len (("Привет".data).take k) ≤ 6 - 3 ∧
          (k < ("Привет".data).length →
            6 - 3 < utf8Len (("Привет".data).take (k + 1)))) :=
  ⟨⟨by decide, truncate_text_spec.1 " hi " 10 (by decide)⟩,
    ⟨by decide, by
      have h := truncate_text_spec.2 "Привет" 6 (by decide)
      have htrim : rustTrim "Привет".data = "Привет".data := by decide
      rwa [htrim] at h⟩⟩

/-! ## C10 -/

/-- C10: the returned string's byte length is at most max_len whenever
max_len ≥ 3: the kept prefix fits in max_len - 3 bytes and the 3-byte
ellipsis is counted inside the budget. -/
theorem truncate_text_byte_budget (s : String) (n : ℕ) (h : 3 ≤ n) :
    utf8Len (truncate_text s n).data ≤ n := by
  unfold truncate_text
  by_cases hle : utf8Len (rustTrim s.data) ≤ n
  · rw [if_pos hle]
    exact hle
  · rw [if_neg hle]
    show utf8Len (takeBytes (n - 3) (rustTrim s.data) ++ "...".data) ≤ n
    rw [utf8Len_append]
    have h1 := utf8Len_takeBytes_le (rustTrim s.data) (n - 3)
    have h2 : utf8Len "...".data = 3 := by decide
    omega

/-- Witness for `truncate_text_byte_budget`. -/
theorem truncate_text_byte_budget_witness :
    3 ≤ 6 ∧ utf8Len (truncate_text "hello world" 6).data ≤ 6 :=
  ⟨by decide, truncate_text_byte_budget "hello world" 6 (by decide)⟩

/-! ## C9 -/

/-- C9: for every positive base delay and every noise draw in [-1, 1], the
computed golden-ratio delay lies in [MIN_DELAY_MS, MAX_DELAY_MS] =
[100, 5000] milliseconds (the final clamp enforces the bound). -/
theorem golden_delay_bounded (base_ms : ℕ) (noise : ℚ) (hb : 0 < base_ms)
    (h1 : -1 ≤ noise) (h2 : noise ≤ 1) :
    MIN_DELAY_MS ≤ compute_golden_delay base_ms noise ∧
      compute_golden_delay base_ms noise ≤ MAX_DELAY_MS :=
  clampU64_bounds (castF64ToU64 ((base_ms : ℚ) * (1 + noise * PHI_INVERSE)))
    MIN_DELAY_MS MAX_DELAY_MS (by norm_num [MIN_DELAY_MS, MAX_DELAY_MS])

/-- Witness for `golden_delay_bounded`. -/
theorem golden_delay_bounded_witness :
    0 < 500 ∧ (-1 : ℚ) ≤ 1/2 ∧ (1/2 : ℚ) ≤ 1 ∧
      (MIN_DELAY_MS ≤ compute_golden_delay 500 (1/2) ∧
        compute_golden_delay 500 (1/2) ≤ MAX_DELAY_MS) :=
  ⟨by norm_num, by norm_num, by norm_num,
    golden_delay_bounded 500 (1/2) (by norm_num) (by norm_num) (by norm_num)⟩

/-! ## Demo inputs -/

/-- A feed entry carrying only a title. -/
def entryTitled (t : String) : RssEntry :=
  { title := some t, summary := none, content := none, links := [] }

/-- The three-entry demo feed of the claim, newest first. -/
def demoFeed : List RssEntry := [entryTitled "A", entryTitled "B", entryTitled "C"]

/-- A Telegram wrapper node carrying only message text. -/
def wrapperTexted (t : String) : TgWrapper := { text := some t, date := none }

/-- The demo page of the claim: two junk posts at the old end of the
document, then three qualifying messages, newest last. -/
def demoPage : List TgWrapper :=
  [wrapperTexted "old junk", wrapperTexted "mid junk", wrapperTexted "item1",
    wrapperTexted "item2", wrapperTexted "item3"]

/-- The demo junk predicate: exactly the two junk posts of `demoPage`. -/
def demoJunk (s : String) : Bool := s == "old junk" || s == "mid junk"

/-! ## Parser lemmas -/

theorem tgLoop_eq (is_junk : String → Bool) (maxItems : ℕ) :
    ∀ (ws : List TgWrapper) (acc : List NewsItem),
      tgLoop is_junk maxItems ws acc =
        if maxItems ≤ acc.length then acc
        else acc ++ (ws.filterMap (tgWrapperToItem is_junk)).take (maxItems - acc.length) := by
  intro ws
  induction ws with
  | nil =>
    intro acc
    simp [tgLoop]
  | cons w ws ih =>
    intro acc
    unfold tgLoop
    by_cases hfull : maxItems ≤ acc.length
    · rw [if_pos hfull, if_pos hfull]
    · rw [if_neg hfull]
      cases hw : tgWrapperToItem is_junk w with
      | none =>
        simp only [List.filterMap_cons, hw]
        rw [ih acc, if_neg hfull]
      | some item =>
        simp only [List.filterMap_cons, hw]
        rw [ih (acc ++ [item])]
        by_cases hlast : maxItems ≤ acc.length + 1
        · have hm : maxItems - acc.length = 1 := by omega
          rw [if_pos (by simpa using hlast), hm]
          simp [hfull]
        · have hm : maxItems - acc.length = (maxItems - (acc.length + 1)) + 1 := by omega
          rw [if_neg (by simpa using hlast), hm, List.take_succ_cons]
          simp [hfull]


theorem tgLoop_take (is_junk : String → Bool) (maxItems : ℕ) (ws : List TgWrapper) :
    tgLoop is_junk maxItems ws [] =
      (ws.filterMap (tgWrapperToItem is_junk)).take maxItems := by
  rw [tgLoop_eq]
  by_cases h0 : maxItems = 0
  · simp [h0]
  · rw [if_neg (by simp [h0])]
    simp

theorem tgParse_char (is_junk : String → Bool) (maxItems : ℕ) (ws : List TgWrapper) :
    tgParse is_junk maxItems ws =
      (if ((ws.reverse.filterMap (tgWrapperToItem is_junk)).take maxItems).isEmpty then
        Except.error FetchError.Empty
      else
        Except.ok ((ws.reverse.filterMap (tgWrapperToItem is_junk)).take maxItems).reverse) := by
  unfold tgParse
  rw [tgLoop_take]


theorem emptyGuard_ok {α : Type} {q items res : List α} {err : FetchError}
    (h : (if q.isEmpty then (Except.error err : Except FetchError (List α))
        else Except.ok res) = Except.ok items) :
    q ≠ [] ∧ items = res := by
  cases q with
  | nil => exact absurd h (by simp)
  | cons a l =>
    simp only [List.isEmpty_cons, Bool.false_eq_true, if_false, Except.ok.injEq] at h
    exact ⟨by simp, h.symm⟩

/-! ## C6 -/

/-- C6: the Telegram-mirror parser is equivalent to: walk the wrapper nodes
from the end of the document (newest) backward, keep at most N qualifying
items, fail with Empty when no wrapper qualifies, and otherwise return the
kept items reversed, i.e. oldest-to-newest; on the demo page
[old-junk, mid-junk, item1, item2, item3(newest)] with cap 2 the result is
[item2, item3] in that order. -/
theorem telegram_parser_spec :
    (∀ (is_junk : String → Bool) (maxItems : ℕ) (ws : List TgWrapper),
        tgParse is_junk maxItems ws =
          (if ((ws.reverse.filterMap (tgWrapperToItem is_junk)).take maxItems).isEmpty then
            Except.error FetchError.Empty
          else
            Except.ok ((ws.reverse.filterMap (tgWrapperToItem is_junk)).take maxItems).reverse)) ∧
      tgParse demoJunk 2 demoPage =
        Except.ok [{ title := "item2", description := none, link := none, time_str := "--:--" },
          { title := "item3", description := none, link := none, time_str := "--:--" }] :=
  ⟨tgParse_char, rfl⟩

/-! ## C1 -/

/-- Counterexample to C1: with the demo feed of 3 entries newest-first and a
cap of 2, the RSS parser returns the 2 most recent entries in NEWEST-first
order ["A", "B"]; the claimed oldest-to-newest order ["B", "A"] is false —
fetch_rss never reverses its item list. -/
theorem rss_reverse_refuted :
    ((rssParse (fun _ => false) 2 demoFeed).map NewsItem.title = ["A", "B"]) ∧
      ¬((rssParse (fun _ => false) 2 demoFeed).map NewsItem.title = ["B", "A"]) :=
  ⟨by decide, by decide⟩

/-- C1 amended: the RSS parser takes up to N entries preserving the feed's
native (newest-first) order, junk-filters them, and returns them WITHOUT
reversing, so the returned list stays newest-first; with 3 entries
newest-first and a cap of 2 it returns the 2 most recent entries in
newest-first order. -/
theorem rss_order_amended :
    (∀ (entries : List RssEntry) (maxItems : ℕ),
        (rssParse (fun _ => false) maxItems entries).map NewsItem.title =
          (entries.take maxItems).map (fun e => clean_text (e.title.getD ""))) ∧
      (rssParse (fun _ => false) 2 demoFeed).map NewsItem.title = ["A", "B"] := by
  constructor
  · intro entries maxItems
    unfold rssParse
    induction entries.take maxItems with
    | nil => rfl
    | cons e es ih =>
      have he : rssEntryToItem (fun _ => false) e = some
          { title := clean_text (e.title.getD ""),
            description := (e.summary.map clean_text).orElse
              (fun _ => e.content.map (fun b => clean_text (b.getD ""))),
            link := e.links.head?, time_str := "RSS" } := rfl
      simp only [List.filterMap_cons, he, List.map_cons, ih]
  · decide

/-! ## C2 -/

/-- Counterexample to C2: a feed whose only entry is junk makes fetch_rss
return a SUCCESSFUL empty list, not the Empty error the claim requires of
every parser. -/
theorem parsers_empty_refuted :
    fetch_rss (fun _ => true) [entryTitled "junk"] = Except.ok [] ∧
      fetch_rss (fun _ => true) [entryTitled "junk"] ≠ Except.error FetchError.Empty := by
  refine ⟨rfl, ?_⟩
  intro h
  rw [show fetch_rss (fun _ => true) [entryTitled "junk"] = Except.ok [] from rfl] at h
  exact Except.noConfusion h

/-- C2 amended: the Telegram and NewsData parsers do fail with Empty rather
than succeed empty — any successful result of theirs is non-empty and capped
at MAX_ITEMS_PER_SOURCE — and the price parser returns exactly one item; but
the RSS parser only guarantees the cap: it can succeed with an empty list
(see the counterexample). -/
theorem parsers_result_amended :
    (∀ (is_junk : String → Bool) (ws : List TgWrapper) (items : List NewsItem),
        fetch_telegram is_junk ws = Except.ok items →
          items ≠ [] ∧ items.length ≤ MAX_ITEMS_PER_SOURCE) ∧
      (∀ (is_junk : String → Bool) (key : Option String) (res : Option (List NdEntry))
          (items : List NewsItem),
        fetch_newsdata is_junk key res = Except.ok items →
          items ≠ [] ∧ items.length ≤ MAX_ITEMS_PER_SOURCE) ∧
      (∀ (name url : String) (pc qc : Option String) (now : String) (items : List NewsItem),
        fetch_html name url pc qc now = Except.ok items → items.length = 1) ∧
      (∀ (is_junk : String → Bool) (entries : List RssEntry) (items : List NewsItem),
        fetch_rss is_junk entries = Except.ok items →
          items.length ≤ MAX_ITEMS_PER_SOURCE) := by
  refine ⟨?_, ?_, ?_, ?_⟩
  · intro is_junk ws items h
    unfold fetch_telegram at h
    rw [tgParse_char] at h
    obtain ⟨hne, heq⟩ := emptyGuard_ok h
    subst heq
    refine ⟨by simpa using hne, ?_⟩
    rw [List.length_reverse]
    exact List.length_take_le _ _
  · intro is_junk key res items h
    cases key with
    | none => exact absurd h (by simp [fetch_newsdata])
    | some k =>
      cases res with
      | none => exact absurd h (by simp [fetch_newsdata])
      | some rs =>
        have h' : (if ((rs.take MAX_ITEMS_PER_SOURCE).filterMap (ndEntryToItem is_junk)).isEmpty
            then (Except.error FetchError.Empty : Except FetchError (List NewsItem))
            else Except.ok ((rs.take MAX_ITEMS_PER_SOURCE).filterMap (ndEntryToItem is_junk)))
            = Except.ok items := h
        obtain ⟨hne, heq⟩ := emptyGuard_ok h'
        subst heq
        exact ⟨hne, le_trans (List.length_filterMap_le _ _) (List.length_take_le _ _)⟩
  · intro name url pc qc now items h
    unfold fetch_html at h
    split at h
    · cases pc with
      | none =>
        dsimp only at h
        simp at h
      | some p =>
        dsimp only at h
        split at h
        · exact absurd h (by simp)
        · injection h with h'
          rw [← h']
          rfl
    · dsimp only at h
      simp at h
  · intro is_junk entries items h
    injection h with h'
    rw [← h']
    exact le_trans (List.length_filterMap_le _ _) (List.length_take_le _ _)

/-- Witness for `parsers_result_amended` at a concrete one-message page. -/
theorem parsers_result_amended_witness :
    [({ title := "item1", description := none, link := none,
        time_str := "--:--" } : NewsItem)] ≠ [] ∧
      [({ title := "item1", description := none, link := none,
          time_str := "--:--" } : NewsItem)].length ≤ MAX_ITEMS_PER_SOURCE :=
  parsers_result_amended.1 (fun _ => false) [wrapperTexted "item1"] _ rfl


/-! ## C3 -/

/-- The AlJazeera registry entry: an RSS source whose feed is English. -/
def alJazeera : Source :=
  { name := "AlJazeera", url := "https://www.aljazeera.com/xml/rss/all.xml",
    source_type := .Rss, category := .Global }

/-- A fetch input holding one English feed entry. -/
def demoEnInput : FetchInput :=
  { rssEntries := [entryTitled "Breaking news from the region"], tgWrappers := [],
    apiKey := none, ndResults := none, priceCap := none, percentCap := none,
    now := "12:00" }

/-- C3: the engine performs NO translation.  The step `fetch` applies to the
dispatched parser's output is the identity, and fetching an English RSS
source returns its title verbatim in the original language — nothing is
rewritten into the canonical display language. -/
theorem fetch_translation_absent :
    (∀ items : List NewsItem, translationStep items = items) ∧
      fetch (fun _ => false) alJazeera demoEnInput =
        Except.ok [{ title := "Breaking news from the region",
                     description := none, link := none, time_str := "RSS" }] :=
  ⟨fun _ => rfl, rfl⟩

/-! ## C5 -/

/-- Counterexample to C5: a transport failure of the external call makes
translate_text return an error to its caller, not the original text. -/
theorem translate_never_fails_refuted :
    translate_text "hello" "ru" TransportResult.sendFail ≠ Except.ok "hello" ∧
      (translate_text "hello" "ru" TransportResult.sendFail).isOk = false := by
  refine ⟨?_, rfl⟩
  intro h
  rw [show translate_text "hello" "ru" TransportResult.sendFail
      = Except.error "HTTP send failed" from rfl] at h
  exact Except.noConfusion h

/-- C5 amended: translate_text PROPAGATES transport errors, non-success
statuses and JSON decode failures to its caller as errors; only when the
call and the decode succeed does it never fail, returning the extracted
translation, or the original text unchanged exactly when the extraction is
empty. -/
theorem translate_error_amended :
    (∀ text lang : String,
        (translate_text text lang TransportResult.sendFail).isOk = false) ∧
      (∀ (text lang : String) (body : Except Unit TJson),
        (translate_text text lang (TransportResult.ok false body)).isOk = false) ∧
      (∀ (text lang : String) (e : Unit),
        (translate_text text lang (TransportResult.ok true (Except.error e))).isOk
          = false) ∧
      (∀ (text lang : String) (j : TJson),
        translate_text text lang (TransportResult.ok true (Except.ok j)) =
          Except.ok (if extractTranslation j = "" then text else extractTranslation j)) := by
  refine ⟨fun _ _ => rfl, fun _ _ _ => rfl, fun _ _ _ => rfl, ?_⟩
  intro text lang j
  show (if extractTranslation j = "" then (Except.ok text : Except String String)
      else Except.ok (extractTranslation j)) =
    Except.ok (if extractTranslation j = "" then text else extractTranslation j)
  by_cases hj : extractTranslation j = ""
  · rw [if_pos hj, if_pos hj]
  · rw [if_neg hj, if_neg hj]


/-! ## C4 -/

theorem retryGo_first_ok (attempt : ℕ → Except SpecFetchError (List NewsItem))
    (v : List NewsItem) :
    ∀ (k i n : ℕ) (last : Option SpecFetchError), k < n →
      (∀ j, j < k → (attempt (i + j)).isOk = false) →
      attempt (i + k) = Except.ok v →
      retryGo attempt i last n = (Except.ok v, i + k + 1) := by
  intro k
  induction k with
  | zero =>
    intro i n last hn hfail hok
    cases n with
    | zero => omega
    | succ m =>
      have hok' : attempt i = Except.ok v := hok
      unfold retryGo
      rw [hok']
  | succ k ih =>
    intro i n last hn hfail hok
    cases n with
    | zero => omega
    | succ m =>
      have h0 : (attempt i).isOk = false := hfail 0 (by omega)
      obtain ⟨e, he⟩ : ∃ e, attempt i = Except.error e := by
        cases hA : attempt i with
        | ok w => rw [hA] at h0; exact Bool.noConfusion h0
        | error e => exact ⟨e, rfl⟩
      unfold retryGo
      rw [he]
      show retryGo attempt (i + 1) (some e) m = (Except.ok v, i + (k + 1) + 1)
      have hfail' : ∀ j, j < k → (attempt (i + 1 + j)).isOk = false := by
        intro j hj
        have hs := hfail (j + 1) (by omega)
        rwa [show i + (j + 1) = i + 1 + j by omega] at hs
      have hok' : attempt (i + 1 + k) = Except.ok v := by
        rwa [show i + (k + 1) = i + 1 + k by omega] at hok
      have hrec := ih (i + 1) m (some e) (by omega) hfail' hok'
      rw [hrec]
      rw [show i + 1 + k + 1 = i + (k + 1) + 1 by omega]

theorem retryGo_all_fail (attempt : ℕ → Except SpecFetchError (List NewsItem)) :
    ∀ (n i : ℕ) (last : Option SpecFetchError) (e : SpecFetchError), 0 < n →
      (∀ j, j < n - 1 → (attempt (i + j)).isOk = false) →
      attempt (i + (n - 1)) = Except.error e →
      retryGo attempt i last n = (Except.error e, i + n) := by
  intro n
  induction n with
  | zero => intro i last e h; omega
  | succ m ih =>
    intro i last e hpos hfail hlast
    cases m with
    | zero =>
      have he : attempt i = Except.error e := hlast
      unfold retryGo
      rw [he]
      rfl
    | succ m' =>
      have h0 : (attempt i).isOk = false := hfail 0 (by omega)
      obtain ⟨e0, he0⟩ : ∃ e0, attempt i = Except.error e0 := by
        cases hA : attempt i with
        | ok w => rw [hA] at h0; exact Bool.noConfusion h0
        | error e0 => exact ⟨e0, rfl⟩
      unfold retryGo
      rw [he0]
      show retryGo attempt (i + 1) (some e0) (m' + 1) = (Except.error e, i + (m' + 1 + 1))
      have hfail' : ∀ j, j < (m' + 1) - 1 → (attempt (i + 1 + j)).isOk = false := by
        intro j hj
        have hs := hfail (j + 1) (by omega)
        rwa [show i + (j + 1) = i + 1 + j by omega] at hs
      have hlast' : attempt (i + 1 + ((m' + 1) - 1)) = Except.error e := by
        rwa [show i + (m' + 1 + 1 - 1) = i + 1 + (m' + 1 - 1) by omega] at hlast
      have hrec := ih (i + 1) (some e0) e (by omega) hfail' hlast'
      rw [hrec]
      rw [show i + 1 + (m' + 1) = i + (m' + 1 + 1) by omega]

/-- The attempt trace of the first C4 scenario: RateLimited twice, then
success. -/
def demoItems : List NewsItem := [{ title := "ok", time_str := "10:00" }]

def rlAttempt (i : ℕ) : Except SpecFetchError (List NewsItem) :=
  if i < 2 then Except.error SpecFetchError.RateLimited else Except.ok demoItems

/-- The attempt trace of the second C4 scenario: NotFound on every call. -/
def nfAttempt (_ : ℕ) : Except SpecFetchError (List NewsItem) :=
  Except.error SpecFetchError.NotFound

/-- C4: the (spec-modelled) retry wrapper returns the first success
immediately, after exactly one more attempt than the failures before it;
when every attempt fails it returns the last attempt's error after exactly
maxAttempts attempts; in particular RateLimited-RateLimited-success with
maxAttempts 3 yields the success after 3 attempts, and always-NotFound with
maxAttempts 3 yields NotFound after 3 attempts. -/
theorem fetch_with_retry_behavior :
    (∀ (attempt : ℕ → Except SpecFetchError (List NewsItem)) (maxAttempts k : ℕ)
        (v : List NewsItem), k < maxAttempts →
        (∀ j, j < k → (attempt j).isOk = false) → attempt k = Except.ok v →
        fetch_with_retry attempt maxAttempts = (Except.ok v, k + 1)) ∧
      (∀ (attempt : ℕ → Except SpecFetchError (List NewsItem)) (maxAttempts : ℕ)
          (e : SpecFetchError), 0 < maxAttempts →
        (∀ j, j < maxAttempts - 1 → (attempt j).isOk = false) →
        attempt (maxAttempts - 1) = Except.error e →
        fetch_with_retry attempt maxAttempts = (Except.error e, maxAttempts)) ∧
      fetch_with_retry rlAttempt 3 = (Except.ok demoItems, 3) ∧
      fetch_with_retry nfAttempt 3 = (Except.error SpecFetchError.NotFound, 3) := by
  refine ⟨?_, ?_, rfl, rfl⟩
  · intro attempt maxAttempts k v hk hfail hok
    have hfail' : ∀ j, j < k → (attempt (0 + j)).isOk = false := by
      intro j hj
      rw [Nat.zero_add]
      exact hfail j hj
    have hok' : attempt (0 + k) = Except.ok v := by rw [Nat.zero_add]; exact hok
    have hrec := retryGo_first_ok attempt v k 0 maxAttempts none hk hfail' hok'
    unfold fetch_with_retry
    rw [hrec, Nat.zero_add]
  · intro attempt maxAttempts e hpos hfail hlast
    have hfail' : ∀ j, j < maxAttempts - 1 → (attempt (0 + j)).isOk = false := by
      intro j hj
      rw [Nat.zero_add]
      exact hfail j hj
    have hlast' : attempt (0 + (maxAttempts - 1)) = Except.error e := by
      rw [Nat.zero_add]; exact hlast
    have hrec := retryGo_all_fail attempt maxAttempts 0 none e hpos hfail' hlast'
    unfold fetch_with_retry
    rw [hrec, Nat.zero_add]

/-- Witness for `fetch_with_retry_behavior`, replaying both scenarios through
the universal parts. -/
theorem fetch_with_retry_behavior_witness :
    fetch_with_retry rlAttempt 3 = (Except.ok demoItems, 3) ∧
      fetch_with_retry nfAttempt 3 = (Except.error SpecFetchError.NotFound, 3) :=
  ⟨fetch_with_retry_behavior.1 rlAttempt 3 2 demoItems (by decide)
      (by decide) rfl,
    fetch_with_retry_behavior.2.1 nfAttempt 3 SpecFetchError.NotFound (by decide)
      (by decide) rfl⟩


/-! ## C7 -/

/-- The text block one source contributes to the aggregate content: its
formatted results plus a trailing newline on success, its formatted error on
failure. -/
def blockOf (engine : Source → Except FetchError (List NewsItem))
    (s : Source) : String :=
  match engine s with
  | .ok items => format_results s.name items ++ "\n"
  | .error e => format_error s.name e

/-- Concatenation of the per-source blocks in source order. -/
def joinedBlocks (engine : Source → Except FetchError (List NewsItem)) :
    List Source → String
  | [] => ""
  | s :: ss => blockOf engine s ++ joinedBlocks engine ss

/-- Number of sources whose engine outcome is a success. -/
def okCount (engine : Source → Except FetchError (List NewsItem))
    (srcs : List Source) : ℕ :=
  srcs.countP (fun s => (engine s).isOk)

/-- Number of sources whose engine outcome is a failure. -/
def errCount (engine : Source → Except FetchError (List NewsItem))
    (srcs : List Source) : ℕ :=
  srcs.countP (fun s => !(engine s).isOk)

theorem aggStep_foldl (engine : Source → Except FetchError (List NewsItem)) :
    ∀ (srcs : List Source) (accS : String) (a b : ℕ),
      srcs.foldl (aggStep engine) (accS, a, b) =
        (accS ++ joinedBlocks engine srcs, a + okCount engine srcs,
          b + errCount engine srcs) := by
  intro srcs
  induction srcs with
  | nil =>
    intro accS a b
    simp [joinedBlocks, okCount, errCount, String.append_empty]
  | cons s ss ih =>
    intro accS a b
    rw [List.foldl_cons]
    cases hE : engine s with
    | ok items =>
      have hstep : aggStep engine (accS, a, b) s =
          (accS ++ format_results s.name items ++ "\n", a + 1, b) := by
        unfold aggStep
        rw [hE]
      rw [hstep, ih]
      have hblock : blockOf engine s = format_results s.name items ++ "\n" := by
        unfold blockOf
        rw [hE]
      have hok : okCount engine (s :: ss) = okCount engine ss + 1 := by
        unfold okCount
        rw [List.countP_cons]
        simp [hE, Except.isOk, Except.toBool]
      have herr : errCount engine (s :: ss) = errCount engine ss := by
        unfold errCount
        rw [List.countP_cons]
        simp [hE, Except.isOk, Except.toBool]
      rw [joinedBlocks, hblock, hok, herr]
      simp only [Prod.mk.injEq]
      refine ⟨?_, ?_, trivial⟩
      · simp [String.append_assoc]
      · omega
    | error e =>
      have hstep : aggStep engine (accS, a, b) s =
          (accS ++ format_error s.name e, a, b + 1) := by
        unfold aggStep
        rw [hE]
      rw [hstep, ih]
      have hblock : blockOf engine s = format_error s.name e := by
        unfold blockOf
        rw [hE]
      have hok : okCount engine (s :: ss) = okCount engine ss := by
        unfold okCount
        rw [List.countP_cons]
        simp [hE, Except.isOk, Except.toBool]
      have herr : errCount engine (s :: ss) = errCount engine ss + 1 := by
        unfold errCount
        rw [List.countP_cons]
        simp [hE, Except.isOk, Except.toBool]
      rw [joinedBlocks, hblock, hok, herr]
      simp only [Prod.mk.injEq]
      refine ⟨?_, trivial, ?_⟩
      · simp [String.append_assoc]
      · omega

theorem fetch_target_char (engine : Source → Except FetchError (List NewsItem))
    (target : Target) :
    fetch_target engine target =
      if target.resolve.isEmpty then
        { header := target.display_name ++ " Feed", content := "🕸 No sources found",
          success_count := 0, error_count := 1 }
      else
        { header := target.display_name ++ " Feed",
          content := joinedBlocks engine target.resolve,
          success_count := okCount engine target.resolve,
          error_count := errCount engine target.resolve } := by
  unfold fetch_target
  by_cases hres : target.resolve.isEmpty
  · rw [if_pos hres, if_pos hres]
  · rw [if_neg hres, if_neg hres, aggStep_foldl]
    rw [String.empty_append, Nat.zero_add, Nat.zero_add]

/-- C7: a target resolving to no sources yields the "no sources" aggregate
with success 0 and error 1 without consulting the engine (the result does
not depend on it); otherwise every resolved source contributes exactly one
block — a formatted result block on success, a formatted error block on
failure — and the counters tally exactly the successes and failures, so no
single failure aborts the batch. -/
theorem aggregator_spec :
    (∀ (engineA engineB : Source → Except FetchError (List NewsItem))
        (target : Target), target.resolve = [] →
        fetch_target engineA target = fetch_target engineB target) ∧
      (∀ (engine : Source → Except FetchError (List NewsItem)) (target : Target),
        fetch_target engine target =
          if target.resolve.isEmpty then
            { header := target.display_name ++ " Feed",
              content := "🕸 No sources found",
              success_count := 0, error_count := 1 }
          else
            { header := target.display_name ++ " Feed",
              content := joinedBlocks engine target.resolve,
              success_count := okCount engine target.resolve,
              error_count := errCount engine target.resolve }) := by
  constructor
  · intro engineA engineB target h
    rw [fetch_target_char, fetch_target_char, h]
    simp
  · intro engine target
    exact fetch_target_char engine target

/-- Witness for `aggregator_spec`: the name "nosuch" resolves to no source,
and two differently-behaving engines produce the same aggregate there. -/
theorem aggregator_spec_witness :
    fetch_target (fun _ => Except.error (FetchError.Http "down"))
        (Target.Source "nosuch") =
      fetch_target (fun _ => Except.ok []) (Target.Source "nosuch") :=
  aggregator_spec.1 (fun _ => Except.error (FetchError.Http "down"))
    (fun _ => Except.ok []) (Target.Source "nosuch") (by decide)

